import Mathlib

/-!
Shallow embedding of filesentry's core data structures and operations,
translated from the Rust sources (`src/path.rs`, `src/events.rs`,
`src/pending.rs`, `src/tree.rs`).  The model fixes `cfg!(unix) = true`
throughout, matching the POSIX build that the specification describes:
path buffers are byte sequences (`List Nat`) that are NUL-terminated by
construction, and the separator byte is 47.
-/

set_option maxRecDepth 4000

namespace Filesentry

/-- Path buffers are raw byte sequences, as in `CannonicalPathBuf { buf: EcoVec<u8> }`. -/
abbrev Buf := List Nat

/-- `PATH_SEPERATOR` on unix (`b'/'`). -/
def sepByte : Nat := 47

/-- Model of `memchr::memrchr`: index of the last occurrence of a byte. -/
def memrchr (b : Nat) : List Nat → Option Nat
  | [] => none
  | x :: xs =>
    match memrchr b xs with
    | some i => some (i + 1)
    | none => if x = b then some 0 else none

/-- Lexicographic comparison of two byte slices (`<[u8] as Ord>::cmp`).
In `cmp` below it is only applied to slices of equal length. -/
def cmpBytes : List Nat → List Nat → Ordering
  | [], [] => .eq
  | [], _ :: _ => .lt
  | _ :: _, [] => .gt
  | x :: xs, y :: ys => (compare x y).then (cmpBytes xs ys)

/-- Model of `fn cmp(lhs: &[u8], rhs: &[u8]) -> Ordering` in `src/path.rs`
(lines 129-153), with `cfg!(unix)` fixed to true: `prefix_len` is
`min(len) saturating_sub 1`, the shared prefix is compared bytewise, and
ties are broken by comparing the separator with the byte of the longer
buffer at `prefix_len`. -/
def cmpBuf (lhs rhs : Buf) : Ordering :=
  let prefixLen := (min lhs.length rhs.length) - 1
  (cmpBytes (lhs.take prefixLen) (rhs.take prefixLen)).then
    (if lhs.length < rhs.length then compare sepByte (rhs.getD prefixLen 0)
     else if rhs.length < lhs.length then compare (lhs.getD prefixLen 0) sepByte
     else .eq)

/-- `CannonicalPath::as_raw_bytes`: the empty path stands for `b".\0"`. -/
def asRawBytes (buf : Buf) : Buf := if buf = [] then [46, 0] else buf

/-- `CannonicalPath::as_bytes` on unix: the raw bytes without the final NUL. -/
def asBytes (buf : Buf) : Buf := (asRawBytes buf).dropLast

/-- `CannonicalPath::len` on unix: `bytes.len().saturating_sub(1)`. -/
def lenOp (buf : Buf) : Nat := buf.length - 1

/-- `CannonicalPath::is_parent_of`:
`other.as_bytes().starts_with(self.as_bytes()) && other.bytes[self.len()] == PATH_SEPERATOR`. -/
def isParentOf (self other : Buf) : Bool :=
  (asBytes self).isPrefixOf (asBytes other) && other.getD (lenOp self) 0 = sepByte

/-- `CannonicalPathBuf::new`. -/
def newBuf : Buf := []

/-- `CannonicalPathBuf::push` on unix: pop the trailing NUL (a plain `pop`,
removing the last byte whatever it is), prepend a separator when the pushed
component does not start with one, append the component and a fresh NUL. -/
def pushOp (buf src : Buf) : Buf :=
  let b := buf.dropLast
  let b := if src.head? ≠ some sepByte then b ++ [sepByte] else b
  b ++ src ++ [0]

/-- `CannonicalPathBuf::push_raw` on unix. -/
def pushRawOp (buf src : Buf) : Buf := buf.dropLast ++ src ++ [0]

/-- `CannonicalPathBuf::pop`: truncate at the last separator of the raw
buffer; returns the new buffer and whether anything was popped. -/
def popOp (buf : Buf) : Buf × Bool :=
  match memrchr sepByte buf with
  | none => (buf, false)
  | some i => (buf.take i, true)

/-- `CannonicalPathBuf::assert_cannoncalized`: `new` followed by `push`. -/
def assertCannoncalized (src : Buf) : Buf := pushOp newBuf src

/-- `CannonicalPath::join`: copy the buffer (or start fresh when empty) and `push`. -/
def joinOp (self other : Buf) : Buf :=
  if self = [] then pushOp newBuf other else pushOp self other

/-- `CannonicalPath::parent`: bytes before the last separator of the raw buffer. -/
def parentBytes (buf : Buf) : Option Buf := (memrchr sepByte buf).map (buf.take ·)

/-! ## Events and the debouncer (`src/events.rs`) -/

inductive EventType where
  | create
  | delete
  | modified
  deriving DecidableEq, Repr

structure Event where
  path : Buf
  ty : EventType
  deriving DecidableEq, Repr

def dummyEvent : Event := ⟨[], .create⟩

/-- `EventDebouncer`: a hash table of indices into the event vector, keyed by
path (the hash table is modelled as the list of stored indices; lookup finds
an index whose event has the wanted path, exactly as the Rust closures do). -/
structure Debouncer where
  table : List Nat
  events : List Event
  deriving DecidableEq, Repr

def Debouncer.empty : Debouncer := ⟨[], []⟩

/-- `EventDebouncer::add` (src/events.rs lines 39-74).  On an occupied entry
the pair (stored kind, incoming kind) is merged by the transition match; note
that the `(Create, Delete)` arm removes only the table entry (`entry.remove()`)
and leaves the stored event in the vector untouched. -/
def Debouncer.add (d : Debouncer) (path : Buf) (ty : EventType) : Debouncer :=
  match d.table.find? (fun i => decide ((d.events.getD i dummyEvent).path = path)) with
  | some i =>
    let ev := d.events.getD i dummyEvent
    match ev.ty, ty with
    | .create, .delete => { d with table := d.table.erase i }
    | _, .delete => { d with events := d.events.set i { ev with ty := .delete } }
    | .delete, .create => { d with events := d.events.set i { ev with ty := .modified } }
    | .create, .modified => d
    | .modified, .modified => d
    | _, _ => d
  | none =>
    { table := d.table ++ [d.events.length], events := d.events ++ [⟨path, ty⟩] }

/-- `EventDebouncer::take`: clears the table and moves the events out. -/
def Debouncer.take (d : Debouncer) : List Event × Debouncer :=
  (d.events, Debouncer.empty)

/-! ## Filesystem metadata (`src/metadata.rs`)

`Metadata::for_path` performs an `lstat`; `NOENT`/`NOTDIR`, other errors and
non-regular non-directory entries all yield `None`.  The observable behaviour
is a partial map from logical path bytes to metadata, which is how a
filesystem snapshot is represented here: `Fs := Buf → Option Meta`. -/

structure Meta where
  isDir : Bool
  mtime : Nat
  size : Nat
  inode : Nat
  deriving DecidableEq, Repr

abbrev Fs := Buf → Option Meta

/-! ## The in-memory file tree (`src/tree.rs`) -/

inductive NodeMeta where
  | dir
  | file (mtime size : Nat)
  | deleted
  deriving DecidableEq, Repr

def NodeMeta.isDir : NodeMeta → Bool
  | .dir => true
  | _ => false

def NodeMeta.isFile : NodeMeta → Bool
  | .file _ _ => true
  | _ => false

/-- `NodeMeta::new`. -/
def NodeMeta.ofMeta (m : Meta) : NodeMeta :=
  if m.isDir then .dir else .file m.mtime m.size

/-- `NodeMeta::change_type` (src/tree.rs lines 46-66). -/
def NodeMeta.changeType (old new : NodeMeta) (skipCheck : Bool) : Option EventType :=
  match old, new with
  | .file mt sz, .file nmt nsz =>
    if skipCheck = false ∧ mt = nmt ∧ sz = nsz then none else some .modified
  | .deleted, .file _ _ => some .create
  | .dir, .file _ _ => some .create
  | .file _ _, .deleted => some .delete
  | .file _ _, .dir => some .delete
  | _, _ => none

/-- Node flag bitset: bit 0 is `MAYBE_DELETED`, bit 1 is `WATCH_CHILDREN`,
`RECURSIVE = 0b110` is bits 1 and 2 together. -/
structure Flags where
  maybeDeleted : Bool
  watchChildren : Bool
  recurBit : Bool
  deriving DecidableEq, Repr

/-- `Flags::empty()`. -/
def Flags.emptyF : Flags := ⟨false, false, false⟩

/-- `flags.contains(Flags::RECURSIVE)`: both bits of `0b110` are set. -/
def Flags.containsRecursive (f : Flags) : Bool := f.watchChildren && f.recurBit

/-- `flags |= Flags::RECURSIVE` / `flags.insert(Flags::RECURSIVE)`. -/
def Flags.insertRecursive (f : Flags) : Flags :=
  { f with watchChildren := true, recurBit := true }

/-- Pending-change flag bitset (`src/pending.rs` lines 12-26). -/
structure PFlags where
  needsRecursiveCrawl : Bool
  needsNonRecursiveCrawl : Bool
  markRecursive : Bool
  originWatcher : Bool
  deriving DecidableEq, Repr

def PFlags.emptyP : PFlags := ⟨false, false, false, false⟩

/-- `PendingChange { path, flags }`. -/
structure PendingChange where
  path : Buf
  flags : PFlags
  deriving DecidableEq, Repr

/-- `FsNode` (src/tree.rs lines 152-159); `children : Option Nat` models the
`DirId` with its `NONE` sentinel. -/
structure FsNode where
  path : Buf
  meta : NodeMeta
  inode : Nat
  flags : Flags
  children : Option Nat
  deriving DecidableEq, Repr

def dummyNode : FsNode := ⟨[], .deleted, 0, Flags.emptyF, none⟩

/-- `FileTree`: the node vector and the child-list vector.  The
`path_table : HashTable<NodeId>` is kept consistent with the node vector by
the code (entries are inserted when a node is pushed and removed again on the
early-error paths before any push), so lookups are modelled as a search of
the node vector by path. -/
structure FileTree where
  nodes : List FsNode
  dirs : List (List Nat)
  deriving DecidableEq, Repr

def FileTree.emptyT : FileTree := ⟨[], []⟩

def FileTree.getNode (s : FileTree) (i : Nat) : FsNode := s.nodes.getD i dummyNode

def FileTree.setNode (s : FileTree) (i : Nat) (nd : FsNode) : FileTree :=
  { s with nodes := s.nodes.set i nd }

/-- Path-table lookup, comparing stored `CannonicalPathBuf`s with the full
buffer (the derived `PartialEq`). -/
def findNode (s : FileTree) (path : Buf) : Option Nat :=
  s.nodes.findIdx? (fun nd => decide (nd.path = path))

/-- Path-table lookup of a parent, comparing with the logical bytes
(`PartialEq<T: AsRef<OsStr>>` compares `as_os_str`). -/
def findNodeLogical (s : FileTree) (bytes : Buf) : Option Nat :=
  s.nodes.findIdx? (fun nd => decide (asBytes nd.path = bytes))

/-- `FileTree::reserve_dir` (the capacity argument has no observable effect). -/
def reserveDir (s : FileTree) (node : Nat) : FileTree :=
  let d := s.dirs.length
  let s := s.setNode node { s.getNode node with children := some d }
  { s with dirs := s.dirs ++ [[]] }

/-- `FileTree::add_child`. -/
def addChild (s : FileTree) (node child : Nat) : FileTree :=
  let s := if (s.getNode node).children = none then reserveDir s node else s
  match (s.getNode node).children with
  | some d => { s with dirs := s.dirs.set d ((s.dirs.getD d []) ++ [child]) }
  | none => s

/-- The worklist loop of `FileTree::delete_rec` (src/tree.rs lines 429-445).
The stack head is the top frame; every frame carries a node that has a child
list (guaranteed at every push site), so the `getD` defaults are never hit. -/
def deleteRecLoop (fuel : Nat) (s : FileTree) (stack : List (Nat × Nat))
    (acc : List Event) : FileTree × List Event :=
  match fuel with
  | 0 => (s, acc)
  | fuel + 1 =>
    match stack with
    | [] => (s, acc)
    | (id, child) :: rest =>
      let dirList := s.dirs.getD ((s.getNode id).children.getD 0) []
      match dirList.get? child with
      | none =>
        let s := s.setNode id { s.getNode id with meta := .deleted }
        deleteRecLoop fuel s rest acc
      | some childId =>
        let cnd := s.getNode childId
        let acc := if cnd.meta.isFile then acc ++ [⟨cnd.path, .delete⟩] else acc
        let stack :=
          if cnd.meta.isDir && cnd.children.isSome then (childId, 0) :: (id, child + 1) :: rest
          else (id, child + 1) :: rest
        let s := s.setNode childId { cnd with meta := .deleted }
        deleteRecLoop fuel s stack acc

/-- `FileTree::delete_rec` (src/tree.rs lines 419-446): returns unchanged when
the node has no child list, otherwise marks it deleted and walks the subtree
with the work stack, emitting `Delete` for every file encountered. -/
def deleteRec (fuel : Nat) (s : FileTree) (id : Nat) : FileTree × List Event :=
  if (s.getNode id).children = none then (s, [])
  else
    let s := s.setNode id { s.getNode id with meta := .deleted }
    deleteRecLoop fuel s [(id, 0)] []

/-- `FileTree::apply_change` (src/tree.rs lines 237-342).  Returns the updated
tree, the emitted events in order, the returned `NodeId` (`none` models the
`NONE` sentinel) and the `recursive` flag. -/
def applyChange (fuel : Nat) (fs : Fs) (s : FileTree) (c : PendingChange) :
    FileTree × List Event × Option Nat × Bool :=
  let fsMeta := fs (asBytes c.path)
  match findNode s c.path with
  | some id =>
    let node := s.getNode id
    let node := if c.flags.markRecursive then { node with flags := node.flags.insertRecursive }
                else node
    match fsMeta with
    | some m =>
      let meta := NodeMeta.ofMeta m
      let inodeChanged := m.inode != node.inode
      let node := { node with inode := m.inode }
      let changed := NodeMeta.changeType node.meta meta
        (inodeChanged || c.flags.originWatcher)
      let events := match changed with
        | some e => [(⟨c.path, e⟩ : Event)]
        | none => []
      let recursive := (c.flags.needsRecursiveCrawl || inodeChanged)
        || changed = some .create
      let node := { node with meta := meta }
      let watchChildren := node.flags.watchChildren
      let s := s.setNode id node
      let s := if m.isDir && node.children = none && m.size ≠ 0 && watchChildren
               then reserveDir s id else s
      (s, events, some id, recursive && watchChildren)
    | none =>
      let oldMeta := node.meta
      let s := s.setNode id { node with meta := .deleted }
      match oldMeta with
      | .dir =>
        let (s, evs) := deleteRec fuel s id
        (s, evs, some id, true)
      | .file _ _ => (s, [(⟨c.path, .delete⟩ : Event)], some id, true)
      | .deleted => (s, [], some id, true)
  | none =>
    match fsMeta with
    | none => (s, [], none, true)
    | some m =>
      let meta := NodeMeta.ofMeta m
      let id := s.nodes.length
      match (parentBytes c.path).bind (findNodeLogical s) with
      | none => (s, [], none, true)
      | some parent =>
        let s := addChild s parent id
        let recursive := c.flags.markRecursive
          || (s.getNode parent).flags.containsRecursive
        let flags := if recursive then Flags.emptyF.insertRecursive else Flags.emptyF
        let s := { s with nodes := s.nodes ++ [⟨c.path, meta, m.inode, flags, none⟩] }
        if m.isDir = false then (s, [(⟨c.path, .create⟩ : Event)], some id, recursive)
        else if recursive && m.size ≠ 0 then (reserveDir s id, [], some id, recursive)
        else (s, [], some id, recursive)

/-- `FileTree::add` (src/tree.rs lines 348-415). -/
def addOp (fs : Fs) (s : FileTree) (path : Buf) (recursive root : Bool) :
    FileTree × Option Nat :=
  match findNode s path with
  | some id =>
    if recursive = false then (s, none)
    else if root && (s.getNode id).meta.isDir = false then (s, none)
    else
      let nd := s.getNode id
      (s.setNode id { nd with flags := nd.flags.insertRecursive }, some id)
  | none =>
    match fs (asBytes path) with
    | none => (s, none)
    | some m =>
      let meta := NodeMeta.ofMeta m
      let id := s.nodes.length
      let parent := (parentBytes path).bind (findNodeLogical s)
      let flags := if recursive then Flags.emptyF.insertRecursive
                   else if root then { Flags.emptyF with watchChildren := true }
                   else Flags.emptyF
      match parent with
      | some p =>
        let s := addChild s p id
        let s := { s with nodes := s.nodes ++ [⟨path, meta, m.inode, flags, none⟩] }
        let s := if m.isDir && (recursive || root) && m.size ≠ 0 then reserveDir s id else s
        (s, some id)
      | none =>
        if root = false then (s, none)
        else
          let s := { s with nodes := s.nodes ++ [⟨path, meta, m.inode, flags, none⟩] }
          let s := if m.isDir && (recursive || root) && m.size ≠ 0 then reserveDir s id else s
          (s, some id)

/-- `FileTree::add_root` (src/tree.rs lines 344-346). -/
def addRoot (fs : Fs) (s : FileTree) (path : Buf) (recursive : Bool) :
    FileTree × Option Nat :=
  addOp fs s path recursive true

/-! ## Crawling (`src/tree.rs` lines 450-527)

`WalkDir` is modelled by its observable output: the list of directory entries
in depth-first order, each with the canonical logical path bytes, its depth
and whether it is a directory.  The walk list and the `Fs` snapshot are
separate inputs because `apply_change` re-stats each entry, which can disagree
with what the directory listing returned (the entry may have vanished in
between).  `skip_current_dir` drops the remaining deeper entries, and
`max_depth(1)` restricts the walk to depth at most 1. -/

structure WalkEntry where
  path : Buf
  depth : Nat
  isDir : Bool
  deriving DecidableEq, Repr

/-- A filter is `ignore_path(path, is_dir_hint)` on logical bytes. -/
abbrev Filter := Buf → Option Bool → Bool

/-- `walk.skip_current_dir()`: drop the pending entries below the current one. -/
def skipCurrentDir (depth : Nat) (walk : List WalkEntry) : List WalkEntry :=
  walk.dropWhile (fun e => decide (depth < e.depth))

/-- Set `MAYBE_DELETED` on every child of a node (crawl lines 471-473, 512-514). -/
def markChildren (s : FileTree) (node : Nat) : FileTree :=
  match (s.getNode node).children with
  | none => s
  | some d =>
    (s.dirs.getD d []).foldl
      (fun s c =>
        s.setNode c { s.getNode c with flags := { (s.getNode c).flags with maybeDeleted := true } })
      s

/-- Scan a frame's children: any child still wearing `MAYBE_DELETED` emits
`Delete` and is recursively deleted (crawl lines 500-505 and 520-525).  The
iteration runs over a clone of the child list, as in the source.  Note that
the flag is not unset here, and `delete_rec` never touches flags either. -/
def scanChildren (fuel : Nat) (s : FileTree) (node : Nat) (acc : List Event) :
    FileTree × List Event :=
  let dirList := s.dirs.getD ((s.getNode node).children.getD 0) []
  dirList.foldl
    (fun sa c =>
      if (sa.1.getNode c).flags.maybeDeleted then
        let acc := sa.2 ++ [(⟨(sa.1.getNode c).path, .delete⟩ : Event)]
        let (s, evs) := deleteRec fuel sa.1 c
        (s, acc ++ evs)
      else sa)
    (s, acc)

/-- `work_stack.pop_if(|(_, depth)| *depth >= child.depth())` loop
(crawl lines 499-506).  The stack head is the top frame. -/
def popIfLoop (fuel depth : Nat) (s : FileTree) (stack : List (Nat × Nat))
    (acc : List Event) : FileTree × List (Nat × Nat) × List Event :=
  match stack with
  | [] => (s, [], acc)
  | (n, d) :: rest =>
    if depth ≤ d then
      let (s, acc) := scanChildren fuel s n acc
      popIfLoop fuel depth s rest acc
    else (s, (n, d) :: rest, acc)

/-- The drain loop at the end of `crawl` (lines 519-526). -/
def finalPop (fuel : Nat) (s : FileTree) (stack : List (Nat × Nat))
    (acc : List Event) : FileTree × List Event :=
  stack.foldl (fun sa f => scanChildren fuel sa.1 f.1 sa.2) (s, acc)

/-- The entry loop of `FileTree::crawl` (lines 477-518).  The result is
`none` when the source would panic: `self[node]` is evaluated on the id
returned by `apply_change`, which indexes the node vector with the `NONE`
sentinel (`u32::MAX`) whenever `apply_change` returned it. -/
def crawlGo (fuel : Nat) (fs : Fs) (filt : Filter) (recursive : Bool) (flags : PFlags) :
    Nat → FileTree → List (Nat × Nat) → List Event → List Buf →
    List WalkEntry → Option (FileTree × List Event × List Buf)
  | _, s, stack, acc, watches, [] =>
    let (s, acc) := finalPop fuel s stack acc
    some (s, acc, watches)
  | 0, s, stack, acc, watches, _ =>
    let (s, acc) := finalPop fuel s stack acc
    some (s, acc, watches)
  | steps + 1, s, stack, acc, watches, e :: rest =>
    if e.depth = 0 then crawlGo fuel fs filt recursive flags steps s stack acc watches rest
    else if filt e.path (some e.isDir) then
      let rest := if e.isDir then skipCurrentDir e.depth rest else rest
      crawlGo fuel fs filt recursive flags steps s stack acc watches rest
    else
      let path := assertCannoncalized e.path
      let c : PendingChange := ⟨path, flags⟩
      let (s, evs, nodeId, _) := applyChange fuel fs s c
      let acc := acc ++ evs
      match nodeId with
      | none => none
      | some id =>
        if id < s.nodes.length then
          let s := s.setNode id
            { s.getNode id with flags := { (s.getNode id).flags with maybeDeleted := false } }
          let (s, stack, acc) := popIfLoop fuel e.depth s stack acc
          let nd := s.getNode id
          if nd.meta.isDir && recursive then
            let watches := watches ++ [path]
            if nd.children.isSome then
              let s := markChildren s id
              crawlGo fuel fs filt recursive flags steps s ((id, e.depth) :: stack) acc watches rest
            else crawlGo fuel fs filt recursive flags steps s stack acc watches rest
          else crawlGo fuel fs filt recursive flags steps s stack acc watches rest
        else none

/-- `FileTree::crawl` (src/tree.rs lines 450-527), with the `add_watch`
callback accumulated as a list of watched paths. -/
def crawl (fuel : Nat) (fs : Fs) (filt : Filter) (walk : List WalkEntry)
    (s : FileTree) (root : Nat) : Option (FileTree × List Event × List Buf) :=
  let nd := s.getNode root
  let recursive := nd.flags.containsRecursive
  let flags : PFlags :=
    if recursive then ⟨true, false, true, false⟩ else ⟨true, false, false, false⟩
  let walk := if recursive then walk else walk.filter (fun e => decide (e.depth ≤ 1))
  let watches := [nd.path]
  let (s, stack) :=
    if nd.children.isSome then (markChildren s root, [(root, 0)])
    else (s, ([] : List (Nat × Nat)))
  crawlGo fuel fs filt recursive flags (walk.length + 1) s stack [] watches walk

/-! ## Pending changes and transactions (`src/pending.rs`, `src/tree.rs`) -/

/-- One insertion step of an insertion sort that keeps an element after the
run of elements it does not compare strictly less than. -/
def insertKeep (lt : α → α → Bool) : List α → α → List α
  | [], x => [x]
  | y :: ys, x => if lt x y then x :: y :: ys else y :: insertKeep lt ys x

/-- Model of `sort_unstable_by`: for the slice lengths arising here (below
the standard library's small-slice threshold of 21) `sort_unstable_by` is an
insertion sort that only moves an element past those it compares strictly
less than, so elements that compare `Equal` keep their relative order. -/
def sortByLt (lt : α → α → Bool) (l : List α) : List α := l.foldl (insertKeep lt) []

/-- `PendingChanges::drain` (src/pending.rs lines 166-171): sort the change
vector by `change1.path.cmp(&change2.path)` and yield it. -/
def drainSorted (changes : List PendingChange) : List PendingChange :=
  sortByLt (fun a b => cmpBuf a.path b.path == Ordering.lt) changes

/-- The per-change loop of `FileTree::apply_transaction` (src/tree.rs lines
200-217), acting on the drained (already sorted) change list.  `walkOf` gives
the directory listing that a crawl rooted at a given path would observe.
`none` propagates a crawl panic. -/
def applyTransactionGo (fuel : Nat) (fs : Fs) (filt : Filter)
    (walkOf : Buf → List WalkEntry) : Nat → FileTree → List PendingChange →
    Option (FileTree × List Event)
  | 0, s, _ => some (s, [])
  | _, s, [] => some (s, [])
  | steps + 1, s, c :: rest =>
    let (s, evs, nodeId, recurse) := applyChange fuel fs s c
    if recurse then
      let crawlRes :=
        match nodeId with
        | some id =>
          if (s.getNode id).meta.isDir && filt (asBytes c.path) (some true) = false then
            crawl fuel fs filt (walkOf (asBytes c.path)) s id
          else some (s, [], [])
        | none => some (s, [], [])
      match crawlRes with
      | none => none
      | some (s, evs2, _) =>
        let rest := rest.dropWhile (fun nc => isParentOf c.path nc.path)
        match applyTransactionGo fuel fs filt walkOf steps s rest with
        | none => none
        | some (s, evs3) => some (s, evs ++ evs2 ++ evs3)
    else
      match applyTransactionGo fuel fs filt walkOf steps s rest with
      | none => none
      | some (s, evs3) => some (s, evs ++ evs3)

/-- `FileTree::apply_transaction` (src/tree.rs lines 192-218): drain the
pending set in sorted order and process it. -/
def applyTransaction (fuel : Nat) (fs : Fs) (filt : Filter)
    (walkOf : Buf → List WalkEntry) (pending : List PendingChange) (s : FileTree) :
    Option (FileTree × List Event) :=
  let changes := drainSorted pending
  applyTransactionGo fuel fs filt walkOf (changes.length + 1) s changes

/-! ## Concrete inputs used by the theorems

Byte values: 47 is the separator, 97-100 are the letters a-d, 102 is f,
103 is g, 114 is r. -/

/-- The canonical buffer for the path a (one component under the root). -/
def pathA : Buf := assertCannoncalized [47, 97]

/-- The canonical buffer for a/b. -/
def pathAB : Buf := assertCannoncalized [47, 97, 47, 98]

/-- The canonical buffer for a/b/c. -/
def pathABC : Buf := assertCannoncalized [47, 97, 47, 98, 47, 99]

/-- The canonical buffer for a/b/d. -/
def pathABD : Buf := assertCannoncalized [47, 97, 47, 98, 47, 100]

/-- A filter that ignores nothing. -/
def noFilter : Filter := fun _ _ => false

/-- The canonical buffer for the directory r. -/
def pathR : Buf := assertCannoncalized [47, 114]

/-- The canonical buffer for the file r/f. -/
def pathRF : Buf := assertCannoncalized [47, 114, 47, 102]

/-- A tree holding a single recursively watched root directory r with no
materialized child list. -/
def treeVanish : FileTree := ⟨[⟨pathR, .dir, 1, ⟨false, true, true⟩, none⟩], []⟩

/-- Snapshot for the vanished-entry crawl: the directory r exists on disk but
the entry r/g listed by the walker has disappeared before it is statted. -/
def fsVanish : Fs := fun b => if b = [47, 114] then some ⟨true, 0, 0, 1⟩ else none

/-- The walker listed r (depth 0) and the entry r/g below it. -/
def walkVanish : List WalkEntry := [⟨[47, 114], 0, true⟩, ⟨[47, 114, 47, 103], 1, false⟩]

/-- A tree holding the root directory r with one known child file r/f. -/
def treeGone : FileTree :=
  ⟨[⟨pathR, .dir, 1, ⟨false, true, true⟩, some 0⟩,
    ⟨pathRF, .file 0 1, 2, ⟨false, true, true⟩, none⟩],
   [[1]]⟩

/-- Snapshot where r still exists but r/f has been removed from disk. -/
def fsGone : Fs := fun b => if b = [47, 114] then some ⟨true, 0, 0, 1⟩ else none

/-- The walker finds the (now empty) directory r only. -/
def walkGone : List WalkEntry := [⟨[47, 114], 0, true⟩]

/-- Snapshot in which the path f is a regular file. -/
def fsFileRoot : Fs := fun b => if b = [47, 102] then some ⟨false, 0, 3, 7⟩ else none

/-- The canonical buffer for the file f. -/
def pathF : Buf := assertCannoncalized [47, 102]

/-- A tree holding the recursively watched directories a and a/b. -/
def treeTx : FileTree :=
  ⟨[⟨pathA, .dir, 1, ⟨false, true, true⟩, some 0⟩,
    ⟨pathAB, .dir, 2, ⟨false, true, true⟩, none⟩],
   [[1]]⟩

/-- Snapshot for the transaction scenario: a and a/b are directories,
a/b/d is a regular file, a/b/c does not exist. -/
def fsTx : Fs := fun b =>
  if b = [47, 97] then some ⟨true, 0, 0, 1⟩
  else if b = [47, 97, 47, 98] then some ⟨true, 0, 0, 2⟩
  else if b = [47, 97, 47, 98, 47, 100] then some ⟨false, 5, 3, 9⟩
  else none

/-- A filter that ignores exactly the directory a/b, so the recursive crawl
requested for it is skipped. -/
def filtTx : Filter := fun b _ => b == [47, 97, 47, 98]

/-- The pending set, in insertion order: a/b with `NEEDS_RECURSIVE_CRAWL`,
then a/b/c, then a, then a/b/d. -/
def pendTx : List PendingChange :=
  [⟨pathAB, ⟨true, false, false, false⟩⟩,
   ⟨pathABC, PFlags.emptyP⟩,
   ⟨pathA, PFlags.emptyP⟩,
   ⟨pathABD, PFlags.emptyP⟩]

/-- No crawl runs in the transaction scenario, so the walk supplier is empty. -/
def walkNone : Buf → List WalkEntry := fun _ => []

/-- The pending set for the drain scenario, in insertion order: first the
child a/b, then its parent a. -/
def pendDrain : List PendingChange :=
  [⟨pathAB, PFlags.emptyP⟩, ⟨pathA, PFlags.emptyP⟩]

/-- The node and tree for the unchanged-stat scenario of `apply_change`: the
file a is stored with mtime 5, size 10 and inode 3. -/
def nodeStat : FsNode := ⟨pathA, .file 5 10, 3, ⟨false, true, true⟩, none⟩

def treeStat : FileTree := ⟨[nodeStat], []⟩

/-- Snapshot where a still is a file with the same mtime and size but a new
inode (4 instead of 3). -/
def fsStat : Fs := fun b => if b = [47, 97] then some ⟨false, 5, 10, 4⟩ else none

/-! ## Theorems for the claims -/

/-- C1: the claim states that after `add(p, Create)` the stored kind for p is
`Create`, and a following `add(p, Delete)` drops the entry so that the next
`take()` holds no event for p.  On the code this fails: `entry.remove()` in
the `(Create, Delete)` arm removes only the hash-table index, the event stays
in the event vector, and `take()` still returns the stale `Create` event
for p. -/
theorem claim1_tempfile_event_survives :
    (((Debouncer.empty.add pathA .create).add pathA .delete).take).1 =
      [(⟨pathA, .create⟩ : Event)] := by decide

/-- C2: the claim states that a `take()` batch holds at most one event per
path.  After `add(p, Create)`, `add(p, Delete)`, `add(p, Create)` the batch
holds two events for p: the first `Create` survives the table-entry removal
and the third `add` finds a vacant table entry and pushes a second event. -/
theorem claim2_duplicate_events_per_path :
    ((((Debouncer.empty.add pathA .create).add pathA .delete).add pathA .create).take).1 =
      [(⟨pathA, .create⟩ : Event), ⟨pathA, .create⟩] := by decide

/-- C3: the claim states that a proper prefix directory compares strictly
less than its descendant.  For A = a and B = a/b (buffers `a\0` and `a/b\0`
rooted at /), `cmp` returns `Equal`, not `Less`: the tie-break compares the
separator against the descendant's byte at `prefix_len`, which is itself the
separator, and nothing breaks the remaining tie. -/
theorem claim3_parent_compares_equal :
    isParentOf pathA pathAB = true ∧ cmpBuf pathA pathAB = Ordering.eq ∧
      cmpBuf pathA pathAB ≠ Ordering.lt := by decide

/-- C4: the claim states that `drain()` yields parents before their
descendants.  With the pending set inserted as [a/b, a], the sort leaves the
child a/b in front of its parent a because the comparator ranks them
`Equal` and `sort_unstable_by` (an insertion sort at this length) never moves
elements that do not compare strictly less. -/
theorem claim4_child_drained_before_parent :
    (drainSorted pendDrain).map (fun c => c.path) = [pathAB, pathA] ∧
      isParentOf pathA pathAB = true := by decide

/-- C5: the claim states that a crawl step whose stat fails is skipped and
the crawl returns normally, never indexing the node vector with the `NONE`
sentinel.  When the walker lists the unknown entry r/g and the entry
vanishes before `apply_change` stats it, `apply_change` returns
`(NodeId::NONE, true)` and the very next line of `crawl` evaluates
`self[node]`, indexing the node vector with `u32::MAX`; the model returns
`none` exactly where the source panics. -/
theorem claim5_crawl_panics_on_vanished_entry :
    crawl 10 fsVanish noFilter walkVanish treeVanish 0 = none := by decide

/-- C6: the claim states that no node still carries `MAYBE_DELETED` when
`crawl` returns.  Crawling the root r whose recorded child r/f is gone from
disk emits the `Delete` event for r/f, but neither the scan loops nor
`delete_rec` unset the flag, so the node for r/f still carries
`MAYBE_DELETED` after the crawl has returned. -/
theorem claim6_maybe_deleted_flag_persists :
    (crawl 10 fsGone noFilter walkGone treeGone 0).map
        (fun r => ((r.1.getNode 1).flags.maybeDeleted, r.2.1)) =
      some (true, [(⟨pathRF, .delete⟩ : Event)]) := by decide

/-- C7: the claim states that after every operation sequence a non-empty
buffer stays NUL-terminated and `as_bytes` returns the logical bytes.  After
constructing a/b and calling `pop`, the buffer is truncated at the last
separator, which removes the NUL: the buffer `a` (bytes 47, 97) no longer
ends in 0, and `as_bytes` then drops the final logical byte instead of the
terminator. -/
theorem claim7_pop_drops_nul_terminator :
    (popOp pathAB).1 = [47, 97] ∧ (popOp pathAB).1.getLast? ≠ some 0 ∧
      asBytes (popOp pathAB).1 ≠ [47, 97] := by decide

/-- C8: the claim states that `add_root` refuses a non-directory path, for
unknown paths as well as known ones.  On a fresh tree, adding the regular
file f as a root succeeds: the vacant branch of `add` never checks
`is_dir`, so the call returns a node id and creates a `File` node. -/
theorem claim8_file_root_accepted :
    fsFileRoot (asBytes pathF) = some ⟨false, 0, 3, 7⟩ ∧
      (addRoot fsFileRoot FileTree.emptyT pathF true).2 = some 0 ∧
      ((addRoot fsFileRoot FileTree.emptyT pathF true).1.getNode 0).meta = .file 0 3 := by
  decide

/-- C9: on an existing node where both the stored and the observed metadata
are files with identical mtime and size, `apply_change` emits `Modified`
exactly when the change carries `ORIGIN_WATCHER` or the observed inode
differs from the stored one, and emits nothing otherwise. -/
theorem claim9_skip_check_forces_modified (fuel : Nat) (fs : Fs) (s : FileTree)
    (c : PendingChange) (i : Nat) (nd : FsNode) (mt sz : Nat) (m : Meta)
    (hfind : findNode s c.path = some i) (hnd : s.getNode i = nd)
    (hmeta : nd.meta = .file mt sz) (hfs : fs (asBytes c.path) = some m)
    (hdir : m.isDir = false) (hmt : m.mtime = mt) (hsz : m.size = sz) :
    (applyChange fuel fs s c).2.1 =
      if m.inode != nd.inode || c.flags.originWatcher
      then [(⟨c.path, .modified⟩ : Event)] else [] := by
  simp only [applyChange, hfind, hfs, hnd]
  cases hmark : c.flags.markRecursive <;>
    cases hskip : (m.inode != nd.inode || c.flags.originWatcher) <;>
      simp [hmark, hskip, hmeta, hdir, hmt, hsz, NodeMeta.ofMeta, NodeMeta.changeType]

/-- C9 witness: with the file a stored as (mtime 5, size 10, inode 3) and
observed as (mtime 5, size 10, inode 4), a change without flags emits
`Modified` although mtime and size are unchanged, because the inode
differs. -/
theorem claim9_skip_check_forces_modified_witness :
    (applyChange 10 fsStat treeStat ⟨pathA, PFlags.emptyP⟩).2.1 =
      [(⟨pathA, .modified⟩ : Event)] := by
  have h := claim9_skip_check_forces_modified 10 fsStat treeStat
    ⟨pathA, PFlags.emptyP⟩ 0 nodeStat 5 10 (⟨false, 5, 10, 4⟩ : Meta)
    (by decide) (by decide) (by decide) (by decide) (by decide) (by decide) (by decide)
  simpa using h

/-- C10: the claim states that once a drained change comes back with
`recurse = true`, every later pending change under its path is skipped.  In
the drained order [a/b, a/b/c, a, a/b/d] (which the comparator produces
because it ranks a directory `Equal` to both its descendants and its
ancestors), the change for a/b recurses (its crawl being skipped by the
filter), a/b/c is skipped, but the skip loop stops at the non-descendant a,
and the descendant a/b/d is then applied: a node for it is created and its
`Create` event emitted. -/
theorem claim10_descendant_change_applied :
    isParentOf pathAB pathABD = true ∧
      (drainSorted pendTx).map (fun c => c.path) = [pathAB, pathABC, pathA, pathABD] ∧
      (applyTransaction 20 fsTx filtTx walkNone pendTx treeTx).map
          (fun r => ((r.1.nodes.map (fun nd => nd.path)).contains pathABD, r.2)) =
        some (true, [(⟨pathABD, .create⟩ : Event)]) := by decide

end Filesentry
